import Mathlib

/-!
Shallow embedding of the BitTorrent tracker core (`tracker.py`).

Modelling conventions:
* Wall-clock time (`time.time()`) is modelled as a natural number of seconds
  (`now : Nat`); the staleness test `current_time - peer.last_seen < 1800`
  coincides with Python float arithmetic on integer-valued times because
  truncated `Nat` subtraction agrees with the comparison for both orders of
  the operands.
* Python `dict`s keyed by info hash are modelled as association lists
  (`List (String × α)`) preserving insertion order; `lookupA` is `d[k]` / `in`,
  `setA` is dict assignment.
* Python `Set[Peer]` is modelled as a `List Peer`; `add_peer` first removes
  every record with the announcing `peer_id`, and the freshly built record can
  never be structurally equal to a remaining element, so the set-insert is a
  genuine insertion and list append is a faithful model.
* Machine integers reported by clients (`uploaded`, `downloaded`, `left`,
  `port`) are modelled as `Int`, matching Python arbitrary-precision ints.
* Fallible parsing (`int(...)` raising) is modelled with `Option`.
-/

/-- A peer record, from the frozen dataclass `Peer` in `tracker.py`. -/
structure Peer where
  peer_id : String
  ip : String
  port : Int
  last_seen : Nat
  uploaded : Int
  downloaded : Int
  left : Int
  is_seeder : Bool
deriving Repr, DecidableEq

/-- Torrent metadata, from the dataclass `TorrentInfo` in `tracker.py`. -/
structure TorrentInfo where
  info_hash : String
  name : String
  size : Int
  piece_length : Int
  creation_date : Nat
  comment : Option String
  created_by : Option String
deriving Repr, DecidableEq

/-- Model of `is_similar_hash` from `tracker.py`: compare the first 10 and last 5
characters of two hashes; `False` when either is shorter than 15 characters.
The `threshold` parameter of the Python function is unused there and is kept
here as an argument. -/
def is_similar_hash (hash1 hash2 : String) (threshold : ℚ) : Bool :=
  if hash1.length < 15 || hash2.length < 15 then
    false
  else
    (hash1.take 10 == hash2.take 10) && (hash1.takeRight 5 == hash2.takeRight 5)

/-- Model of `find_similar_hash` from `tracker.py`: first hash in iteration order whose
first 10 and last 5 characters match the target; `None` when the collection is
empty or the target is shorter than 15 characters; candidates shorter than 15
characters are skipped.  The `threshold` parameter is unused in the source and
kept as an argument. -/
def find_similar_hash (target_hash : String) (existing_hashes : List String)
    (threshold : ℚ) : Option String :=
  if existing_hashes.isEmpty || target_hash.length < 15 then
    none
  else
    existing_hashes.find? (fun existing_hash =>
      decide (15 ≤ existing_hash.length) &&
      (existing_hash.take 10 == target_hash.take 10) &&
      (existing_hash.takeRight 5 == target_hash.takeRight 5))

/-- Association-list model of Python dict lookup (`d[k]`, `d.get(k)`). -/
def lookupA {α : Type} : List (String × α) → String → Option α
  | [], _ => none
  | (k', v) :: rest, k => if k' = k then some v else lookupA rest k

/-- Association-list model of Python dict assignment `d[k] = v`: overwrite the
existing binding in place, otherwise append (insertion order preserved; the
modelled dicts bind each key at most once). -/
def setA {α : Type} : List (String × α) → String → α → List (String × α)
  | [], k, v => [(k, v)]
  | (k', w) :: rest, k, v =>
    if k' = k then (k, v) :: rest else (k', w) :: setA rest k v

/-- The tracker's mutable state: `self.torrents` (info hash → swarm) and
`self.torrent_info` (info hash → metadata), from `Tracker.__init__`. -/
structure Tracker where
  torrents : List (String × List Peer)
  torrent_info : List (String × TorrentInfo)
deriving Repr, DecidableEq

/-- A tracker that starts with no state (fresh start, no persisted file). -/
def emptyTracker : Tracker := ⟨[], []⟩

/-- The swarm stored for an info hash (empty when the hash is unknown). -/
def swarmOf (t : Tracker) (info_hash : String) : List Peer :=
  (lookupA t.torrents info_hash).getD []

/-- Model of `Tracker.add_torrent`: create metadata and an empty swarm when absent;
never overwrites an existing record. `now` stands for `time.time()`. -/
def add_torrent (now : Nat) (info_hash : String) (name : String) (size : Int)
    (piece_length : Int) (comment : String) (created_by : String)
    (t : Tracker) : Tracker :=
  let info : TorrentInfo :=
    ⟨info_hash, name, size, piece_length, now, some comment, some created_by⟩
  let t1 :=
    if (lookupA t.torrent_info info_hash).isSome then t
    else { t with torrent_info := setA t.torrent_info info_hash info }
  if (lookupA t1.torrents info_hash).isSome then t1
  else { t1 with torrents := setA t1.torrents info_hash [] }

/-- Model of `Tracker.add_peer`: ensure the torrent exists, drop every record with the
announcing `peer_id`, then insert a fresh record with `last_seen = now` and
`is_seeder = (left == 0)`. -/
def add_peer (now : Nat) (info_hash peer_id ip : String)
    (port uploaded downloaded left : Int) (t : Tracker) : Tracker :=
  let t1 :=
    if (lookupA t.torrents info_hash).isSome then t
    else add_torrent now info_hash "" 0 0 "" "" t
  let sw := (lookupA t1.torrents info_hash).getD []
  let kept := sw.filter (fun p => decide (p.peer_id ≠ peer_id))
  let new_peer : Peer :=
    ⟨peer_id, ip, port, now, uploaded, downloaded, left, decide (left = 0)⟩
  { t1 with torrents := setA t1.torrents info_hash (kept ++ [new_peer]) }

/-- The 30-minute staleness filter used by `Tracker.get_peers` and
`Tracker.load_state`: keep peers with `now - last_seen < 1800`. -/
def activeFilter (now : Nat) (peers : List Peer) : List Peer :=
  peers.filter (fun p => decide (now - p.last_seen < 1800))

/-- Model of `Tracker.get_peers`: empty result for an unknown hash; otherwise evict
stale peers (mutating the stored swarm) and, when `requesting_peer_id` is
truthy (present and non-empty), exclude it from the returned list. -/
def get_peers (now : Nat) (info_hash : String)
    (requesting_peer_id : Option String) (t : Tracker) : List Peer × Tracker :=
  match lookupA t.torrents info_hash with
  | none => ([], t)
  | some peers =>
    let active_peers := activeFilter now peers
    let t1 := { t with torrents := setA t.torrents info_hash active_peers }
    if requesting_peer_id.getD "" ≠ "" then
      (active_peers.filter
        (fun p => decide (p.peer_id ≠ requesting_peer_id.getD "")), t1)
    else
      (active_peers, t1)

/-- The statistics dictionary returned by `Tracker.get_stats`. -/
structure Stats where
  complete : Nat
  incomplete : Nat
  downloaded : Int
  uploaded : Int
  peers : Nat
deriving Repr, DecidableEq

/-- Model of `Tracker.get_stats`: `{}` (modelled `none`) for an unknown hash; otherwise
aggregate over the active peers returned by `get_peers` (which also evicts
stale peers from the stored swarm). -/
def get_stats (now : Nat) (info_hash : String) (t : Tracker) :
    Option Stats × Tracker :=
  match lookupA t.torrents info_hash with
  | none => (none, t)
  | some _ =>
    let res := get_peers now info_hash none t
    let peers := res.1
    let seeders := (peers.filter (fun p => p.is_seeder)).length
    let leechers := peers.length - seeders
    let total_uploaded := (peers.map Peer.uploaded).sum
    let total_downloaded := (peers.map Peer.downloaded).sum
    (some ⟨seeders, leechers, total_downloaded, total_uploaded, peers.length⟩,
      res.2)

/-- The spec's StatsAggregator, as a pure function of a peer snapshot. -/
def aggregate (peers : List Peer) : Stats :=
  ⟨(peers.filter (fun p => p.is_seeder)).length,
    peers.length - (peers.filter (fun p => p.is_seeder)).length,
    (peers.map Peer.downloaded).sum,
    (peers.map Peer.uploaded).sum,
    peers.length⟩

/-- One persisted torrent entry of the state document:
`{info: ..., peers_info: [...], stats: ...}` as written by `save_state`.
`load_state` reads only `info` and `peers_info`. -/
structure SavedTorrent where
  info : TorrentInfo
  peers_info : List Peer
  stats : Option Stats
deriving Repr, DecidableEq

/-- Model of `Tracker.save_state`: for every entry of `torrent_info`, in order, record
its metadata, its currently active peers (`get_peers`, which also evicts stale
peers from the live swarm), and its stats; the tracker mutated by those reads
is returned alongside the document. -/
def save_state (now : Nat) (t : Tracker) :
    List (String × SavedTorrent) × Tracker :=
  t.torrent_info.foldl
    (fun acc e =>
      let r1 := get_peers now e.1 none acc.2
      let r2 := get_stats now e.1 r1.2
      (acc.1 ++ [(e.1, ⟨e.2, r1.1, r2.1⟩)], r2.2))
    ([], t)

/-- Stable insertion into a descending-by-`last_seen` list: the new element
goes after every strictly more recent element and before any equally recent
one (it came earlier in the original list). -/
def insertDesc (p : Peer) : List Peer → List Peer
  | [] => [p]
  | q :: rest =>
    if p.last_seen < q.last_seen then q :: insertDesc p rest
    else p :: q :: rest

/-- Model of `sorted(peers_info, key=last_seen, reverse=True)`: a stable
sort by `last_seen` descending (Python's `sorted` is stable), modelled as a
stable insertion sort. -/
def sortByLastSeenDesc : List Peer → List Peer
  | [] => []
  | p :: rest => insertDesc p (sortByLastSeenDesc rest)

/-- The `unique_peers` loop of `load_state`: keep only the first occurrence of
each `peer_id`, preserving order. -/
def dedupByPeerId : List Peer → List Peer
  | [] => []
  | p :: rest =>
    p :: (dedupByPeerId rest).filter (fun q => decide (q.peer_id ≠ p.peer_id))

/-- The peer-rebuild step of `load_state` for one torrent: sort by `last_seen`
descending, then keep the first occurrence of each `peer_id`. -/
def restorePeers (peers_info : List Peer) : List Peer :=
  dedupByPeerId (sortByLastSeenDesc peers_info)

/-- Model of `Tracker.load_state` on a present state document, at load time `now`:
restore all metadata; restore a swarm only for torrents whose persisted peer
list is non-empty (deduplicated, most recent `last_seen` first); then the
cleanup loop applies the 30-minute staleness filter to every restored swarm
and, when nothing survives, deletes both the swarm and its metadata. -/
def load_state (now : Nat) (doc : List (String × SavedTorrent)) : Tracker :=
  let torrent_info0 := doc.map (fun e => (e.1, e.2.info))
  let torrents0 := doc.filterMap (fun e =>
    if e.2.peers_info.isEmpty then none
    else some (e.1, restorePeers e.2.peers_info))
  let torrents1 := torrents0.filterMap (fun e =>
    if (activeFilter now e.2).isEmpty then none
    else some (e.1, activeFilter now e.2))
  let dead : List String := torrents0.filterMap (fun e =>
    if (activeFilter now e.2).isEmpty then some e.1 else none)
  let torrent_info1 := torrent_info0.filter (fun e => decide (e.1 ∉ dead))
  ⟨torrents1, torrent_info1⟩

/-- Digit-string to number; `none` when empty or containing a non-digit. -/
def digits? (cs : List Char) : Option Nat :=
  if cs.isEmpty then none
  else
    cs.foldl
      (fun acc c =>
        acc.bind (fun n =>
          if c.isDigit then some (n * 10 + (c.toNat - 48)) else none))
      (some 0)

/-- Model of Python `int(s)` on a query-string value: an optional sign
followed by one or more digits; anything else raises (`none`). -/
def pyInt? (s : String) : Option Int :=
  match s.toList with
  | '-' :: rest => (digits? rest).map (fun n => -(n : Int))
  | '+' :: rest => (digits? rest).map (fun n => (n : Int))
  | cs => (digits? cs).map (fun n => (n : Int))

/-- Model of `int(request.args.get(name, 0))`: default 0 when absent, parse failure is
an exception (`none`). -/
def optArgInt (args : List (String × String)) (name : String) : Option Int :=
  match lookupA args name with
  | none => some 0
  | some s => pyInt? s

/-- HTTP outcome of an endpoint: 200 with a payload, 400, or 500. -/
inductive Resp (α : Type) where
  | ok (val : α)
  | badRequest
  | internalError
deriving DecidableEq, Repr

/-- The bencoded announce success payload: `interval`, `complete`,
`incomplete`, and the peer list of `(peer_id, ip, port)` dictionaries. -/
structure AnnounceResponse where
  interval : Nat
  complete : Nat
  incomplete : Nat
  peers : List (String × String × Int)
deriving Repr, DecidableEq

/-- The `/announce` handler: parse `port` (required, exception when missing or
unparseable → 500) and the optional counters (exception on present-but-bad
value → 500); return 400 when `info_hash`, `peer_id` or `port` is falsy
(absent, empty string, or integer 0); otherwise upsert the peer, read the
swarm and stats, and return the bencoded dictionary. -/
def announce (now : Nat) (remote_addr : String)
    (args : List (String × String)) (t : Tracker) :
    Resp AnnounceResponse × Tracker :=
  let info_hash := lookupA args "info_hash"
  let peer_id := lookupA args "peer_id"
  match (lookupA args "port").bind pyInt?, optArgInt args "uploaded",
      optArgInt args "downloaded", optArgInt args "left" with
  | some port, some uploaded, some downloaded, some left =>
    if info_hash.getD "" ≠ "" ∧ peer_id.getD "" ≠ "" ∧ port ≠ 0 then
      let ih := info_hash.getD ""
      let pid := peer_id.getD ""
      let t1 := add_peer now ih pid remote_addr port uploaded downloaded left t
      let r1 := get_peers now ih (some pid) t1
      match get_stats now ih r1.2 with
      | (some st, t3) =>
        (Resp.ok ⟨1800, st.complete, st.incomplete,
          r1.1.map (fun p => (p.peer_id, p.ip, p.port))⟩, t3)
      | (none, t3) => (Resp.internalError, t3)
    else (Resp.badRequest, t)
  | _, _, _, _ => (Resp.internalError, t)

/-- The `files` entry of the `/scrape` success payload. -/
structure ScrapeResponse where
  info_hash : String
  complete : Nat
  downloaded : Int
  incomplete : Nat
  name : String
deriving Repr, DecidableEq

/-- The `/scrape` handler: 400 when `info_hash` is absent or empty; otherwise
compute stats — for an unknown hash `get_stats` yields the empty dict and the
subscript `stats['complete']` raises (→ 500); for a known hash answer 200. -/
def scrape (now : Nat) (args : List (String × String)) (t : Tracker) :
    Resp ScrapeResponse × Tracker :=
  match lookupA args "info_hash" with
  | none => (Resp.badRequest, t)
  | some info_hash =>
    if info_hash = "" then (Resp.badRequest, t)
    else
      match get_stats now info_hash t with
      | (none, t1) => (Resp.internalError, t1)
      | (some st, t1) =>
        let name :=
          match lookupA t1.torrent_info info_hash with
          | some info => info.name
          | none => ""
        (Resp.ok ⟨info_hash, st.complete, st.downloaded, st.incomplete, name⟩,
          t1)

/-- The JSON body accepted by `/add_torrent_info`; each field may be absent.
The client also sends `creation_date`, which the handler never reads. -/
structure AddTorrentBody where
  info_hash : Option String
  name : Option String
  size : Option Int
  piece_length : Option Int
  comment : Option String
  created_by : Option String
  creation_date : Option Int
deriving Repr, DecidableEq

/-- The `/add_torrent_info` handler: 400 when there is no body or no
`info_hash` key; find a similar hash among the swarm keys; on a match,
overwrite the five descriptive fields of the matched metadata record with the
body's values (defaults `''` / `0` when absent), leaving `info_hash` and
`creation_date` untouched; 400 when no key matches.  A matched key missing
from `torrent_info` would raise a `KeyError` (→ 500). -/
def add_torrent_info (body : Option AddTorrentBody) (t : Tracker) :
    Resp Unit × Tracker :=
  match body with
  | none => (Resp.badRequest, t)
  | some data =>
    match data.info_hash with
    | none => (Resp.badRequest, t)
    | some info_hash =>
      match find_similar_hash info_hash (t.torrents.map Prod.fst)
          ((95 : ℚ)/100) with
      | none => (Resp.badRequest, t)
      | some similar_hash =>
        match lookupA t.torrent_info similar_hash with
        | none => (Resp.internalError, t)
        | some info =>
          let info1 : TorrentInfo :=
            { info with
              name := data.name.getD ""
              size := data.size.getD 0
              piece_length := data.piece_length.getD 0
              comment := some (data.comment.getD "")
              created_by := some (data.created_by.getD "") }
          (Resp.ok (),
            { t with torrent_info := setA t.torrent_info similar_hash info1 })

/-- The arguments of one `add_peer` (announce upsert) call, `now` included. -/
structure AnnounceCall where
  now : Nat
  info_hash : String
  peer_id : String
  ip : String
  port : Int
  uploaded : Int
  downloaded : Int
  left : Int
deriving Repr, DecidableEq

/-- Run a sequence of `add_peer` calls against a tracker. -/
def runAddPeers (t : Tracker) (calls : List AnnounceCall) : Tracker :=
  calls.foldl
    (fun t c => add_peer c.now c.info_hash c.peer_id c.ip c.port c.uploaded
      c.downloaded c.left t) t

/-- The peer record `add_peer` builds for one call. -/
def freshPeer (c : AnnounceCall) : Peer :=
  ⟨c.peer_id, c.ip, c.port, c.now, c.uploaded, c.downloaded, c.left,
    decide (c.left = 0)⟩

/-- The most recent call of a sequence for a given swarm and peer id. -/
def lastCall (calls : List AnnounceCall) (ih pid : String) :
    Option AnnounceCall :=
  (calls.filter (fun c => decide (c.info_hash = ih ∧ c.peer_id = pid))).getLast?

theorem lookupA_append {α : Type} (m1 m2 : List (String × α)) (k : String) :
    lookupA (m1 ++ m2) k =
      match lookupA m1 k with
      | some v => some v
      | none => lookupA m2 k := by
  induction m1 with
  | nil => rfl
  | cons e rest ihm =>
    obtain ⟨k', v⟩ := e
    by_cases h : k' = k <;> simp [lookupA, h, ihm]

theorem lookupA_eq_none_iff_any {α : Type} (m : List (String × α))
    (k : String) :
    lookupA m k = none ↔ m.any (fun e => decide (e.1 = k)) = false := by
  induction m with
  | nil => simp [lookupA]
  | cons e rest ihm =>
    obtain ⟨k', v⟩ := e
    by_cases h : k' = k <;> simp [lookupA, h, ihm]

theorem lookupA_setA_self {α : Type} (m : List (String × α)) (k : String)
    (v : α) : lookupA (setA m k v) k = some v := by
  induction m with
  | nil => simp [setA, lookupA]
  | cons e rest ihm =>
    obtain ⟨k0, w⟩ := e
    by_cases hk : k0 = k
    · simp [setA, hk, lookupA]
    · simp [setA, hk, lookupA, ihm]

theorem lookupA_setA_ne {α : Type} (m : List (String × α)) (k k' : String)
    (v : α) (h : k' ≠ k) : lookupA (setA m k v) k' = lookupA m k' := by
  induction m with
  | nil => simp [setA, lookupA, Ne.symm h]
  | cons e rest ihm =>
    obtain ⟨k0, w⟩ := e
    by_cases hk : k0 = k
    · subst hk
      simp [setA, lookupA, Ne.symm h]
    · simp [setA, hk, lookupA, ihm]

theorem add_peer_torrents_lookup (now : Nat) (info_hash peer_id ip : String)
    (port uploaded downloaded left : Int) (t : Tracker) (ih : String) :
    lookupA (add_peer now info_hash peer_id ip port uploaded downloaded left
        t).torrents ih =
      if ih = info_hash then
        some ((swarmOf t info_hash).filter
            (fun p => decide (p.peer_id ≠ peer_id)) ++
          [⟨peer_id, ip, port, now, uploaded, downloaded, left,
            decide (left = 0)⟩])
      else lookupA t.torrents ih := by
  unfold add_peer
  cases h : lookupA t.torrents info_hash with
  | some sw =>
    simp only [h, Option.isSome_some, if_true, Option.getD_some]
    by_cases hih : ih = info_hash
    · subst hih
      simp [lookupA_setA_self, swarmOf, h]
    · simp [lookupA_setA_ne _ _ _ _ hih, hih]
  | none =>
    simp only [h, Option.isSome_none, Bool.false_eq_true, if_false]
    unfold add_torrent
    cases h2 : lookupA t.torrent_info info_hash with
    | some info =>
      simp only [h2, Option.isSome_some, if_true, h, Option.isSome_none,
        Bool.false_eq_true, if_false]
      by_cases hih : ih = info_hash
      · subst hih
        simp [lookupA_setA_self, lookupA_setA_ne, swarmOf, h]
      · simp [lookupA_setA_ne _ _ _ _ hih, hih]
    | none =>
      simp only [h2, Option.isSome_none, Bool.false_eq_true, if_false, h]
      by_cases hih : ih = info_hash
      · subst hih
        simp [lookupA_setA_self, lookupA_setA_ne, swarmOf, h]
      · simp [lookupA_setA_ne _ _ _ _ hih, hih]

theorem get_peers_known (now : Nat) (info_hash : String)
    (requesting_peer_id : Option String) (t : Tracker) (sw : List Peer)
    (h : lookupA t.torrents info_hash = some sw) :
    get_peers now info_hash requesting_peer_id t =
      ((if requesting_peer_id.getD "" ≠ "" then
          (activeFilter now sw).filter
            (fun p => decide (p.peer_id ≠ requesting_peer_id.getD ""))
        else activeFilter now sw),
        { t with
          torrents := setA t.torrents info_hash (activeFilter now sw) }) := by
  unfold get_peers
  rw [h]
  by_cases hr : requesting_peer_id.getD "" ≠ "" <;> simp [hr]

theorem get_peers_unknown (now : Nat) (info_hash : String)
    (requesting_peer_id : Option String) (t : Tracker)
    (h : lookupA t.torrents info_hash = none) :
    get_peers now info_hash requesting_peer_id t = ([], t) := by
  unfold get_peers
  rw [h]

theorem get_stats_known (now : Nat) (info_hash : String) (t : Tracker)
    (sw : List Peer) (h : lookupA t.torrents info_hash = some sw) :
    get_stats now info_hash t =
      (some (aggregate (activeFilter now sw)),
        { t with
          torrents := setA t.torrents info_hash (activeFilter now sw) }) := by
  unfold get_stats
  rw [h]
  rw [get_peers_known now info_hash none t sw h]
  simp [aggregate]

theorem get_stats_unknown (now : Nat) (info_hash : String) (t : Tracker)
    (h : lookupA t.torrents info_hash = none) :
    get_stats now info_hash t = (none, t) := by
  unfold get_stats
  rw [h]

theorem stale_not_mem_activeFilter (now : Nat) (p : Peer) (l : List Peer)
    (h : 1800 ≤ now - p.last_seen) : p ∉ activeFilter now l := by
  simp only [activeFilter, List.mem_filter, decide_eq_true_eq, not_and]
  intro _
  omega

theorem runAddPeers_concat (t : Tracker) (calls : List AnnounceCall)
    (c : AnnounceCall) :
    runAddPeers t (calls ++ [c]) =
      add_peer c.now c.info_hash c.peer_id c.ip c.port c.uploaded c.downloaded
        c.left (runAddPeers t calls) := by
  unfold runAddPeers
  rw [List.foldl_append]
  rfl

theorem lastCall_concat (calls : List AnnounceCall) (c : AnnounceCall)
    (ih pid : String) :
    lastCall (calls ++ [c]) ih pid =
      if c.info_hash = ih ∧ c.peer_id = pid then some c
      else lastCall calls ih pid := by
  unfold lastCall
  rw [List.filter_append]
  by_cases hc : c.info_hash = ih ∧ c.peer_id = pid
  · simp [hc]
  · simp [hc]

theorem swarmOf_add_peer (now : Nat) (info_hash peer_id ip : String)
    (port uploaded downloaded left : Int) (t : Tracker) (ih : String) :
    swarmOf (add_peer now info_hash peer_id ip port uploaded downloaded left t)
        ih =
      if ih = info_hash then
        (swarmOf t info_hash).filter (fun p => decide (p.peer_id ≠ peer_id)) ++
          [⟨peer_id, ip, port, now, uploaded, downloaded, left,
            decide (left = 0)⟩]
      else swarmOf t ih := by
  unfold swarmOf
  rw [add_peer_torrents_lookup]
  by_cases hih : ih = info_hash <;> simp [hih, swarmOf]

theorem runAddPeers_filter_char (calls : List AnnounceCall) (ih pid : String) :
    (swarmOf (runAddPeers emptyTracker calls) ih).filter
        (fun p => decide (p.peer_id = pid)) =
      (match lastCall calls ih pid with
       | none => []
       | some c => [freshPeer c]) := by
  induction calls using List.reverseRecOn generalizing ih pid with
  | nil => simp [runAddPeers, swarmOf, emptyTracker, lookupA, lastCall]
  | append_singleton l c IH =>
    rw [runAddPeers_concat, lastCall_concat, swarmOf_add_peer]
    by_cases hih : ih = c.info_hash
    · rw [if_pos hih]
      by_cases hpid : c.peer_id = pid
      · rw [if_pos ⟨hih.symm, hpid⟩, List.filter_append]
        have h1 : ((swarmOf (runAddPeers emptyTracker l) c.info_hash).filter
            (fun p => decide (p.peer_id ≠ c.peer_id))).filter
              (fun p => decide (p.peer_id = pid)) = [] := by
          rw [List.filter_eq_nil_iff]
          intro a ha
          rw [List.mem_filter] at ha
          simp only [decide_eq_true_eq] at ha ⊢
          rw [← hpid]
          exact ha.2
        rw [h1]
        simp [freshPeer, hpid]
      · rw [if_neg (by simp [hpid]), List.filter_append]
        have h2 : (([⟨c.peer_id, c.ip, c.port, c.now, c.uploaded, c.downloaded,
            c.left, decide (c.left = 0)⟩] : List Peer)).filter
              (fun p => decide (p.peer_id = pid)) = [] := by
          simp [hpid]
        rw [h2, List.append_nil, List.filter_filter]
        have h3 : (swarmOf (runAddPeers emptyTracker l) c.info_hash).filter
            (fun p => decide (p.peer_id = pid) && decide (p.peer_id ≠ c.peer_id)) =
            (swarmOf (runAddPeers emptyTracker l) c.info_hash).filter
              (fun p => decide (p.peer_id = pid)) := by
          apply List.filter_congr
          intro a _
          by_cases hA : a.peer_id = pid
          · simp [hA]
            exact fun h => hpid h.symm
          · simp [hA]
        rw [h3, hih]
        exact IH c.info_hash pid
    · rw [if_neg hih, if_neg (by intro hc; exact hih hc.1.symm)]
      exact IH ih pid

theorem runAddPeers_ids_nodup (calls : List AnnounceCall) (ih : String) :
    ((swarmOf (runAddPeers emptyTracker calls) ih).map Peer.peer_id).Nodup := by
  induction calls using List.reverseRecOn generalizing ih with
  | nil => simp [runAddPeers, swarmOf, emptyTracker, lookupA]
  | append_singleton l c IH =>
    rw [runAddPeers_concat, swarmOf_add_peer]
    by_cases hih : ih = c.info_hash
    · rw [if_pos hih, List.map_append, List.nodup_append]
      refine ⟨?_, by simp, ?_⟩
      · exact List.Nodup.sublist
          ((List.filter_sublist _).map Peer.peer_id) (IH c.info_hash)
      · intro a ha hb
        simp only [List.map_cons, List.map_nil, List.mem_singleton] at hb
        subst hb
        rw [List.mem_map] at ha
        obtain ⟨p, hp, hpid⟩ := ha
        rw [List.mem_filter] at hp
        simp only [decide_eq_true_eq] at hp
        exact hp.2 hpid
    · rw [if_neg hih]
      exact IH ih

/-- C1: for every sequence of `add_peer` calls from a fresh tracker, every
swarm holds at most one record per `peer_id`, and the record observable for a
`peer_id` is exactly the record of its most recent announce — the prior record
is gone and the fresh record carries `last_seen = now` and
`is_seeder = (left == 0)`, with no merging of fields. -/
theorem upsert_unique_and_latest (calls : List AnnounceCall) (ih pid : String) :
    ((swarmOf (runAddPeers emptyTracker calls) ih).map Peer.peer_id).Nodup ∧
    (swarmOf (runAddPeers emptyTracker calls) ih).filter
        (fun p => decide (p.peer_id = pid)) =
      (match lastCall calls ih pid with
       | none => []
       | some c => [freshPeer c]) :=
  ⟨runAddPeers_ids_nodup calls ih, runAddPeers_filter_char calls ih pid⟩

theorem add_peer_fresh_record (now : Nat) (ih pid ipa : String)
    (port u d l : Int) (t : Tracker) :
    (swarmOf (add_peer now ih pid ipa port u d l t) ih).filter
        (fun p => decide (p.peer_id = pid)) =
      [⟨pid, ipa, port, now, u, d, l, decide (l = 0)⟩] := by
  rw [swarmOf_add_peer, if_pos rfl, List.filter_append]
  have h1 : ((swarmOf t ih).filter (fun p => decide (p.peer_id ≠ pid))).filter
      (fun p => decide (p.peer_id = pid)) = [] := by
    rw [List.filter_eq_nil_iff]
    intro a ha
    rw [List.mem_filter] at ha
    simp only [decide_eq_true_eq] at ha ⊢
    exact ha.2
  rw [h1]
  simp

/-- C2: on every read (`get_peers` or `get_stats`) of a known `info_hash`, a
peer whose `last_seen` satisfies `now - last_seen >= 1800` is absent from the
returned peer list, absent from the peers the stats are computed over, and is
removed from the stored swarm as a side effect of that very read. -/
theorem read_evicts_stale (now : Nat) (info_hash : String)
    (requesting_peer_id : Option String) (t : Tracker) (sw : List Peer)
    (h : lookupA t.torrents info_hash = some sw) (p : Peer) (hp : p ∈ sw)
    (hstale : 1800 ≤ now - p.last_seen) :
    p ∉ (get_peers now info_hash requesting_peer_id t).1 ∧
    p ∉ swarmOf (get_peers now info_hash requesting_peer_id t).2 info_hash ∧
    (get_stats now info_hash t).1 = some (aggregate (activeFilter now sw)) ∧
    p ∉ activeFilter now sw ∧
    p ∉ swarmOf (get_stats now info_hash t).2 info_hash := by
  have hna := stale_not_mem_activeFilter now p sw hstale
  rw [get_peers_known now info_hash requesting_peer_id t sw h,
    get_stats_known now info_hash t sw h]
  refine ⟨?_, ?_, rfl, hna, ?_⟩
  · by_cases hr : requesting_peer_id.getD "" ≠ ""
    · simp only [if_pos hr]
      intro hmem
      exact hna (List.mem_of_mem_filter hmem)
    · simp only [if_neg hr]
      exact hna
  · simpa [swarmOf, lookupA_setA_self] using hna
  · simpa [swarmOf, lookupA_setA_self] using hna

theorem read_evicts_stale_witness :
    (⟨"a", "ip", 1, 0, 0, 0, 0, true⟩ : Peer) ∉
      (get_peers 1800 "h" none
        ⟨[("h", [⟨"a", "ip", 1, 0, 0, 0, 0, true⟩])], []⟩).1 :=
  (read_evicts_stale 1800 "h" none
    ⟨[("h", [⟨"a", "ip", 1, 0, 0, 0, 0, true⟩])], []⟩
    [⟨"a", "ip", 1, 0, 0, 0, 0, true⟩] (by decide)
    ⟨"a", "ip", 1, 0, 0, 0, 0, true⟩ (by decide) (by decide)).1

/-- C5: for a torrent present in the store, `get_stats` reports
`complete` = number of active seeders, `incomplete` = active count minus
seeders, `uploaded`/`downloaded` = sums over the active peers, hence
`complete + incomplete` = number of active peers; and the record inserted by
an announce has `is_seeder = (left == 0)`. -/
theorem stats_formulas (now : Nat) (info_hash : String) (t : Tracker)
    (sw : List Peer) (h : lookupA t.torrents info_hash = some sw) :
    (get_stats now info_hash t).1 =
      some ⟨((activeFilter now sw).filter (fun p => p.is_seeder)).length,
        (activeFilter now sw).length -
          ((activeFilter now sw).filter (fun p => p.is_seeder)).length,
        ((activeFilter now sw).map Peer.downloaded).sum,
        ((activeFilter now sw).map Peer.uploaded).sum,
        (activeFilter now sw).length⟩ ∧
    (∀ st, (get_stats now info_hash t).1 = some st →
      st.complete + st.incomplete = (activeFilter now sw).length) ∧
    (∀ (now' : Nat) (ih pid ipa : String) (port u d l : Int) (t' : Tracker),
      (swarmOf (add_peer now' ih pid ipa port u d l t') ih).filter
          (fun p => decide (p.peer_id = pid)) =
        [⟨pid, ipa, port, now', u, d, l, decide (l = 0)⟩]) := by
  rw [get_stats_known now info_hash t sw h]
  refine ⟨rfl, ?_, ?_⟩
  · intro st hst
    have hst' : st = aggregate (activeFilter now sw) := by
      injection hst with h'
      exact h'.symm
    subst hst'
    have hle : ((activeFilter now sw).filter
        (fun p => p.is_seeder)).length ≤ (activeFilter now sw).length :=
      List.length_filter_le _ _
    simp only [aggregate]
    omega
  · intro now' ih pid ipa port u d l t'
    exact add_peer_fresh_record now' ih pid ipa port u d l t'

theorem stats_formulas_witness :
    (get_stats 0 "h" ⟨[("h", [⟨"a", "ip", 1, 0, 7, 9, 0, true⟩])], []⟩).1 =
      some ⟨1, 0, 9, 7, 1⟩ := by
  have h := (stats_formulas 0 "h"
    ⟨[("h", [⟨"a", "ip", 1, 0, 7, 9, 0, true⟩])], []⟩
    [⟨"a", "ip", 1, 0, 7, 9, 0, true⟩] (by decide)).1
  rw [h]
  decide

/-- C8 counterexample: `get_peers` called with the empty string as requesting
peer id returns a peer whose `peer_id` equals the requesting peer id, because
the handler tests Python truthiness (`if requesting_peer_id:`) rather than
presence. -/
theorem get_peers_empty_requester_cex :
    (get_peers 0 "h" (some "")
        (add_peer 0 "h" "" "ip" 1 0 0 0 emptyTracker)).1 =
      [⟨"", "ip", 1, 0, 0, 0, 0, true⟩] := by decide

/-- C8 (amended): for every non-empty requesting peer id, `get_peers` never
returns a peer whose `peer_id` equals it; and for an unknown `info_hash` it
returns the empty set with the tracker unchanged, without error.  (When the
requesting peer id is the empty string, no exclusion is applied.) -/
theorem get_peers_excludes_requester (now : Nat) (info_hash pid : String)
    (hpid : pid ≠ "") (t : Tracker) :
    (∀ p ∈ (get_peers now info_hash (some pid) t).1, p.peer_id ≠ pid) ∧
    (∀ requesting_peer_id, lookupA t.torrents info_hash = none →
      get_peers now info_hash requesting_peer_id t = ([], t)) := by
  constructor
  · intro p hp
    cases h : lookupA t.torrents info_hash with
    | none =>
      rw [get_peers_unknown now info_hash (some pid) t h] at hp
      simp at hp
    | some sw =>
      rw [get_peers_known now info_hash (some pid) t sw h] at hp
      have hcond : (some pid).getD "" ≠ "" := hpid
      rw [if_pos hcond] at hp
      rw [List.mem_filter] at hp
      simpa using hp.2
  · intro r hr
    exact get_peers_unknown now info_hash r t hr

theorem get_peers_excludes_requester_witness :
    (⟨"q", "ip", 1, 0, 0, 0, 5, false⟩ : Peer).peer_id ≠ "p" :=
  (get_peers_excludes_requester 1 "h" "p" (by decide)
      (add_peer 1 "h" "p" "ip2" 2 0 0 0
        (add_peer 0 "h" "q" "ip" 1 0 0 5 emptyTracker))).1
    ⟨"q", "ip", 1, 0, 0, 0, 5, false⟩ (by decide)

/-- C4: `find_similar_hash` returns the first key in iteration order whose
first 10 and last 5 characters equal the target's, with no other scoring — the
result is independent of the threshold; whenever the key list splits around a
satisfying key with no earlier satisfier, exactly that key is returned; it
returns `none` whenever the target is shorter than 15 characters, never
matches a candidate shorter than 15 characters, and returns `none` when no
candidate satisfies both partial equalities. -/
theorem find_similar_hash_spec (target : String) (keys : List String)
    (th : ℚ) :
    (target.length < 15 → find_similar_hash target keys th = none) ∧
    (∀ k, find_similar_hash target keys th = some k →
      k ∈ keys ∧ 15 ≤ k.length ∧ k.take 10 = target.take 10 ∧
      k.takeRight 5 = target.takeRight 5 ∧
      is_similar_hash target k th = true ∧
      ∃ l1 l2, keys = l1 ++ k :: l2 ∧ ∀ k' ∈ l1,
        ¬(15 ≤ k'.length ∧ k'.take 10 = target.take 10 ∧
          k'.takeRight 5 = target.takeRight 5)) ∧
    ((∀ k ∈ keys, ¬(15 ≤ k.length ∧ k.take 10 = target.take 10 ∧
        k.takeRight 5 = target.takeRight 5)) →
      find_similar_hash target keys th = none) ∧
    (∀ l1 k l2, 15 ≤ target.length → keys = l1 ++ k :: l2 →
      15 ≤ k.length → k.take 10 = target.take 10 →
      k.takeRight 5 = target.takeRight 5 →
      (∀ k' ∈ l1, ¬(15 ≤ k'.length ∧ k'.take 10 = target.take 10 ∧
        k'.takeRight 5 = target.takeRight 5)) →
      find_similar_hash target keys th = some k) ∧
    (∀ th', find_similar_hash target keys th =
      find_similar_hash target keys th') := by
  refine ⟨?_, ?_, ?_, ?_, fun th' => rfl⟩
  · intro hshort
    unfold find_similar_hash
    rw [if_pos (by simp [hshort])]
  · intro k hk
    unfold find_similar_hash at hk
    by_cases hc : keys.isEmpty || decide (target.length < 15)
    · rw [if_pos hc] at hk
      exact absurd hk (by simp)
    · rw [if_neg hc] at hk
      simp only [Bool.or_eq_true, decide_eq_true_eq, not_or] at hc
      rw [List.find?_eq_some] at hk
      obtain ⟨hpred, l1, l2, hsplit, hprior⟩ := hk
      simp only [Bool.and_eq_true, decide_eq_true_eq, beq_iff_eq] at hpred
      obtain ⟨⟨hlen, htake⟩, hright⟩ := hpred
      refine ⟨hsplit ▸ List.mem_append_right l1 (List.mem_cons_self k l2),
        hlen, htake, hright, ?_, l1, l2, hsplit, ?_⟩
      · unfold is_similar_hash
        rw [if_neg (by simp; omega)]
        simp [htake, hright]
      · intro k' hk'
        have := hprior k' hk'
        simp only [Bool.not_eq_true', Bool.and_eq_false_iff,
          decide_eq_false_iff_not, beq_eq_false_iff_ne] at this
        intro ⟨h1, h2, h3⟩
        rcases this with h | h
        · rcases h with h | h
          · exact h h1
          · exact h h2
        · exact h h3
  · intro hall
    unfold find_similar_hash
    by_cases hc : keys.isEmpty || decide (target.length < 15)
    · rw [if_pos hc]
    · rw [if_neg hc]
      rw [List.find?_eq_none]
      intro k hkmem
      have := hall k hkmem
      simp only [Bool.and_eq_true, decide_eq_true_eq, beq_iff_eq, not_and]
      intro h1 h2
      exact this ⟨h1.1, h1.2, h2⟩
  · intro l1 k l2 htlen hsplit hklen htake hright hprior
    unfold find_similar_hash
    rw [if_neg]
    · rw [List.find?_eq_some]
      refine ⟨?_, l1, l2, hsplit, ?_⟩
      · simp [hklen, htake, hright]
      · intro a ha
        have hna := hprior a ha
        simp only [Bool.not_eq_true', Bool.and_eq_false_iff,
          decide_eq_false_iff_not, beq_eq_false_iff_ne]
        by_cases h1 : 15 ≤ a.length
        · by_cases h2 : a.take 10 = target.take 10
          · exact Or.inr (fun h3 => hna ⟨h1, h2, h3⟩)
          · exact Or.inl (Or.inr h2)
        · exact Or.inl (Or.inl h1)
    · simp only [Bool.or_eq_true, decide_eq_true_eq, not_or]
      constructor
      · rw [hsplit]
        simp
      · omega

theorem find_similar_hash_spec_witness :
    find_similar_hash "short" ["ABCDEFGHIJyyyyyyyZZZZZ"] ((95 : ℚ)/100) =
      none ∧
    find_similar_hash "ABCDEFGHIJxxxxxxxZZZZZ" ["ABCDEFGHIJyyyyyyyZZZZZ"]
        ((95 : ℚ)/100) = some "ABCDEFGHIJyyyyyyyZZZZZ" ∧
    ("ABCDEFGHIJyyyyyyyZZZZZ" ∈ ["ABCDEFGHIJyyyyyyyZZZZZ"] ∧
      15 ≤ ("ABCDEFGHIJyyyyyyyZZZZZ" : String).length) :=
  ⟨(find_similar_hash_spec "short" ["ABCDEFGHIJyyyyyyyZZZZZ"]
      ((95 : ℚ)/100)).1 (by decide),
    ((find_similar_hash_spec "ABCDEFGHIJxxxxxxxZZZZZ"
        ["ABCDEFGHIJyyyyyyyZZZZZ"] ((95 : ℚ)/100)).2.2.2.1
      [] "ABCDEFGHIJyyyyyyyZZZZZ" [] (by decide) rfl (by decide) (by decide)
      (by decide) (by simp)),
    (((find_similar_hash_spec "ABCDEFGHIJxxxxxxxZZZZZ"
        ["ABCDEFGHIJyyyyyyyZZZZZ"] ((95 : ℚ)/100)).2.1
      "ABCDEFGHIJyyyyyyyZZZZZ" (by decide)).1),
    (((find_similar_hash_spec "ABCDEFGHIJxxxxxxxZZZZZ"
        ["ABCDEFGHIJyyyyyyyZZZZZ"] ((95 : ℚ)/100)).2.1
      "ABCDEFGHIJyyyyyyyZZZZZ" (by decide)).2.1)⟩

/-- C9: a `/add_torrent_info` request matching an existing swarm overwrites
`name`, `size`, `piece_length`, `comment` and `created_by` of the matched
record with the body's values, substituting defaults for omitted fields —
omitting a field clears it — while `info_hash` and `creation_date` are left
unchanged (the client-sent `creation_date` is ignored); other records and the
swarms are untouched. -/
theorem add_torrent_info_updates_matched (body : AddTorrentBody)
    (info_hash similar_hash : String) (info : TorrentInfo) (t : Tracker)
    (hih : body.info_hash = some info_hash)
    (hfind : find_similar_hash info_hash (t.torrents.map Prod.fst)
      ((95 : ℚ)/100) = some similar_hash)
    (hinfo : lookupA t.torrent_info similar_hash = some info) :
    (add_torrent_info (some body) t).1 = Resp.ok () ∧
    lookupA (add_torrent_info (some body) t).2.torrent_info similar_hash =
      some { info with
        name := body.name.getD ""
        size := body.size.getD 0
        piece_length := body.piece_length.getD 0
        comment := some (body.comment.getD "")
        created_by := some (body.created_by.getD "") } ∧
    (∀ info1, lookupA (add_torrent_info (some body) t).2.torrent_info
        similar_hash = some info1 →
      info1.info_hash = info.info_hash ∧
      info1.creation_date = info.creation_date) ∧
    (∀ k, k ≠ similar_hash →
      lookupA (add_torrent_info (some body) t).2.torrent_info k =
        lookupA t.torrent_info k) ∧
    (add_torrent_info (some body) t).2.torrents = t.torrents := by
  unfold add_torrent_info
  simp only [hih, hfind, hinfo]
  refine ⟨trivial, ?_, ?_, ?_, trivial⟩
  · simp [lookupA_setA_self]
  · intro info1 h1
    simp only [lookupA_setA_self] at h1
    injection h1 with h1
    subst h1
    exact ⟨rfl, rfl⟩
  · intro k hk
    exact lookupA_setA_ne t.torrent_info similar_hash k _ hk

theorem add_torrent_info_updates_matched_witness :
    lookupA (add_torrent_info
        (some ⟨some "ABCDEFGHIJxxxxxxxZZZZZ", some "n2", none, some 7, none,
          some "cb2", some 123⟩)
        ⟨[("ABCDEFGHIJyyyyyyyZZZZZ", [])],
          [("ABCDEFGHIJyyyyyyyZZZZZ",
            ⟨"ABCDEFGHIJyyyyyyyZZZZZ", "old", 9, 1, 42, some "c",
              some "oldcb"⟩)]⟩).2.torrent_info
      "ABCDEFGHIJyyyyyyyZZZZZ" =
    some ⟨"ABCDEFGHIJyyyyyyyZZZZZ", "n2", 0, 7, 42, some "", some "cb2"⟩ :=
  (add_torrent_info_updates_matched
    ⟨some "ABCDEFGHIJxxxxxxxZZZZZ", some "n2", none, some 7, none,
      some "cb2", some 123⟩
    "ABCDEFGHIJxxxxxxxZZZZZ" "ABCDEFGHIJyyyyyyyZZZZZ"
    ⟨"ABCDEFGHIJyyyyyyyZZZZZ", "old", 9, 1, 42, some "c", some "oldcb"⟩
    ⟨[("ABCDEFGHIJyyyyyyyZZZZZ", [])],
      [("ABCDEFGHIJyyyyyyyZZZZZ",
        ⟨"ABCDEFGHIJyyyyyyyZZZZZ", "old", 9, 1, 42, some "c", some "oldcb"⟩)]⟩
    rfl (by decide) (by decide)).2.1

/-- C10: an announce whose `info_hash` and `peer_id` are present but whose
`port` parameter parses to the integer 0 is answered with 400 — the
truthiness check `all([info_hash, peer_id, port])` treats 0 as absent — and
the tracker state is untouched (no peer registered). -/
theorem announce_port_zero_rejected (now : Nat) (remote : String)
    (args : List (String × String)) (t : Tracker) (ih pid ps : String)
    (u d l : Int)
    (hih : lookupA args "info_hash" = some ih)
    (hpid : lookupA args "peer_id" = some pid)
    (hport : lookupA args "port" = some ps)
    (hzero : pyInt? ps = some 0)
    (hu : optArgInt args "uploaded" = some u)
    (hd : optArgInt args "downloaded" = some d)
    (hl : optArgInt args "left" = some l) :
    announce now remote args t = (Resp.badRequest, t) := by
  unfold announce
  have hbind : (lookupA args "port").bind pyInt? = some 0 := by
    rw [hport, Option.some_bind, hzero]
  simp only [hih, hpid, hbind, hu, hd, hl]
  rw [if_neg (by simp)]

theorem announce_port_zero_rejected_witness :
    announce 0 "ip" [("info_hash", "h"), ("peer_id", "p"), ("port", "0")]
        emptyTracker =
      (Resp.badRequest, emptyTracker) :=
  announce_port_zero_rejected 0 "ip"
    [("info_hash", "h"), ("peer_id", "p"), ("port", "0")] emptyTracker
    "h" "p" "0" 0 0 0 (by decide) (by decide) (by decide) (by decide)
    (by decide) (by decide) (by decide)

/-- C6 counterexample: an announce with `info_hash` and `peer_id` present but
`port` missing raises inside the handler (`int(None)`), which the blanket
`except` turns into HTTP 500 — not the 400 the claim requires. -/
theorem announce_missing_port_cex :
    (announce 0 "ip" [("info_hash", "h"), ("peer_id", "p")]
        emptyTracker).1 = Resp.internalError ∧
    (Resp.internalError : Resp AnnounceResponse) ≠ Resp.badRequest := by
  constructor
  · rfl
  · decide

/-- C6 (amended): with `port` present, parseable and non-zero and the three
counters parseable-or-defaulted, a missing or empty `info_hash` or `peer_id`
yields 400; a missing or unparseable `port` (and likewise an unparseable
counter) yields 500, not 400; a fully well-formed request yields 200 with the
bencoded dictionary (`interval` 1800). -/
theorem announce_status_codes (now : Nat) (remote : String)
    (args : List (String × String)) (t : Tracker) :
    (∀ port u d l, (lookupA args "port").bind pyInt? = some port → port ≠ 0 →
      optArgInt args "uploaded" = some u →
      optArgInt args "downloaded" = some d →
      optArgInt args "left" = some l →
      ((lookupA args "info_hash").getD "" = "" ∨
        (lookupA args "peer_id").getD "" = "") →
      announce now remote args t = (Resp.badRequest, t)) ∧
    ((lookupA args "port").bind pyInt? = none →
      announce now remote args t = (Resp.internalError, t)) ∧
    ((optArgInt args "uploaded" = none ∨ optArgInt args "downloaded" = none ∨
        optArgInt args "left" = none) →
      announce now remote args t = (Resp.internalError, t)) ∧
    (∀ ih pid port u d l, lookupA args "info_hash" = some ih → ih ≠ "" →
      lookupA args "peer_id" = some pid → pid ≠ "" →
      (lookupA args "port").bind pyInt? = some port → port ≠ 0 →
      optArgInt args "uploaded" = some u →
      optArgInt args "downloaded" = some d →
      optArgInt args "left" = some l →
      ∃ resp, (announce now remote args t).1 = Resp.ok resp ∧
        resp.interval = 1800) := by
  refine ⟨?_, ?_, ?_, ?_⟩
  · intro port u d l hport hport0 hu hd hl hmiss
    unfold announce
    simp only [hport, hu, hd, hl]
    rw [if_neg (by rcases hmiss with h | h <;> simp [h])]
  · intro hport
    unfold announce
    simp only [hport]
  · intro hmiss
    unfold announce
    cases hport : (lookupA args "port").bind pyInt? with
    | none => rfl
    | some port =>
      cases hu : optArgInt args "uploaded" with
      | none => rfl
      | some u =>
        cases hd : optArgInt args "downloaded" with
        | none => rfl
        | some d =>
          cases hl : optArgInt args "left" with
          | none => rfl
          | some l =>
            rcases hmiss with h | h | h
            · rw [hu] at h
              exact absurd h (by simp)
            · rw [hd] at h
              exact absurd h (by simp)
            · rw [hl] at h
              exact absurd h (by simp)
  · intro ih pid port u d l hih hne hpid hpne hport hport0 hu hd hl
    unfold announce
    simp only [hih, hpid, hport, hu, hd, hl, Option.getD_some]
    rw [if_pos (by simp [hne, hpne, hport0])]
    have h1 : lookupA (add_peer now ih pid remote port u d l t).torrents ih =
        some ((swarmOf t ih).filter (fun p => decide (p.peer_id ≠ pid)) ++
          [⟨pid, remote, port, now, u, d, l, decide (l = 0)⟩]) := by
      rw [add_peer_torrents_lookup]
      simp
    rw [get_peers_known now ih (some pid)
      (add_peer now ih pid remote port u d l t) _ h1]
    have h2 : lookupA (setA (add_peer now ih pid remote port u d l t).torrents
        ih (activeFilter now ((swarmOf t ih).filter
          (fun p => decide (p.peer_id ≠ pid)) ++
          [⟨pid, remote, port, now, u, d, l, decide (l = 0)⟩]))) ih =
        some (activeFilter now ((swarmOf t ih).filter
          (fun p => decide (p.peer_id ≠ pid)) ++
          [⟨pid, remote, port, now, u, d, l, decide (l = 0)⟩])) :=
      lookupA_setA_self _ _ _
    rw [get_stats_known now ih _ _ h2]
    exact ⟨_, rfl, rfl⟩

theorem announce_status_codes_witness :
    announce 0 "ip" [("peer_id", "p"), ("port", "1")] emptyTracker =
      (Resp.badRequest, emptyTracker) ∧
    announce 0 "ip" [("info_hash", "h"), ("peer_id", "p"), ("port", "x")]
        emptyTracker =
      (Resp.internalError, emptyTracker) ∧
    announce 0 "ip" [("info_hash", "h"), ("peer_id", "p"), ("port", "1"),
        ("uploaded", "z")] emptyTracker =
      (Resp.internalError, emptyTracker) ∧
    ∃ resp, (announce 0 "ip" [("info_hash", "h"), ("peer_id", "p"),
        ("port", "6881")] emptyTracker).1 = Resp.ok resp ∧
      resp.interval = 1800 :=
  ⟨(announce_status_codes 0 "ip" [("peer_id", "p"), ("port", "1")]
      emptyTracker).1 1 0 0 0 (by decide) (by decide) (by decide) (by decide)
      (by decide) (Or.inl (by decide)),
  (announce_status_codes 0 "ip"
      [("info_hash", "h"), ("peer_id", "p"), ("port", "x")]
      emptyTracker).2.1 (by decide),
  (announce_status_codes 0 "ip" [("info_hash", "h"), ("peer_id", "p"),
      ("port", "1"), ("uploaded", "z")] emptyTracker).2.2.1
    (Or.inl (by decide)),
  (announce_status_codes 0 "ip" [("info_hash", "h"), ("peer_id", "p"),
      ("port", "6881")] emptyTracker).2.2.2 "h" "p" 6881 0 0 0 (by decide)
    (by decide) (by decide) (by decide) (by decide) (by decide) (by decide)
    (by decide) (by decide)⟩

/-- C7 counterexample: a scrape for a non-empty but unknown `info_hash` gets
the empty stats dict from `get_stats`, and the handler's `stats['complete']`
subscript raises, yielding 500 — not the 200 the claim requires. -/
theorem scrape_unknown_hash_cex :
    (scrape 0 [("info_hash", "x")] emptyTracker).1 = Resp.internalError ∧
    (Resp.internalError : Resp ScrapeResponse) ≠ Resp.badRequest := by
  constructor
  · rfl
  · decide

/-- C7 (amended): scrape answers 400 when `info_hash` is missing or empty,
200 with the `files` payload when the non-empty `info_hash` is a known
torrent, and 500 when the non-empty `info_hash` is unknown (the empty stats
dict has no `complete` key and the subscript raises). -/
theorem scrape_status_codes (now : Nat) (args : List (String × String))
    (t : Tracker) :
    (lookupA args "info_hash" = none →
      scrape now args t = (Resp.badRequest, t)) ∧
    (lookupA args "info_hash" = some "" →
      scrape now args t = (Resp.badRequest, t)) ∧
    (∀ ih, lookupA args "info_hash" = some ih → ih ≠ "" →
      lookupA t.torrents ih = none →
      scrape now args t = (Resp.internalError, t)) ∧
    (∀ ih sw, lookupA args "info_hash" = some ih → ih ≠ "" →
      lookupA t.torrents ih = some sw →
      (scrape now args t).1 = Resp.ok ⟨ih,
        (aggregate (activeFilter now sw)).complete,
        (aggregate (activeFilter now sw)).downloaded,
        (aggregate (activeFilter now sw)).incomplete,
        (match lookupA t.torrent_info ih with
         | some info => info.name
         | none => "")⟩) := by
  refine ⟨?_, ?_, ?_, ?_⟩
  · intro h
    unfold scrape
    simp only [h]
  · intro h
    unfold scrape
    simp only [h, if_true]
  · intro ih hih hne hnone
    unfold scrape
    simp only [hih]
    rw [if_neg hne, get_stats_unknown now ih t hnone]
  · intro ih sw hih hne hsw
    unfold scrape
    simp only [hih]
    rw [if_neg hne, get_stats_known now ih t sw hsw]

theorem scrape_status_codes_witness :
    scrape 0 [] emptyTracker = (Resp.badRequest, emptyTracker) ∧
    scrape 0 [("info_hash", "")] emptyTracker =
      (Resp.badRequest, emptyTracker) ∧
    scrape 0 [("info_hash", "x")] emptyTracker =
      (Resp.internalError, emptyTracker) ∧
    (scrape 0 [("info_hash", "h")]
        ⟨[("h", [⟨"a", "ip", 1, 0, 7, 9, 0, true⟩])],
          [("h", ⟨"h", "nm", 5, 2, 0, none, none⟩)]⟩).1 =
      Resp.ok ⟨"h", 1, 9, 0, "nm"⟩ := by
  refine ⟨(scrape_status_codes 0 [] emptyTracker).1 (by decide),
    (scrape_status_codes 0 [("info_hash", "")] emptyTracker).2.1 (by decide),
    (scrape_status_codes 0 [("info_hash", "x")] emptyTracker).2.2.1 "x"
      (by decide) (by decide) (by decide), ?_⟩
  have h := (scrape_status_codes 0 [("info_hash", "h")]
      ⟨[("h", [⟨"a", "ip", 1, 0, 7, 9, 0, true⟩])],
        [("h", ⟨"h", "nm", 5, 2, 0, none, none⟩)]⟩).2.2.2 "h"
      [⟨"a", "ip", 1, 0, 7, 9, 0, true⟩] (by decide) (by decide) (by decide)
  rw [h]
  decide

theorem lookupA_eq_none_of_not_mem_keys {α : Type} (m : List (String × α))
    (k : String) (h : k ∉ m.map Prod.fst) : lookupA m k = none := by
  induction m with
  | nil => rfl
  | cons e rest ihm =>
    obtain ⟨k0, v⟩ := e
    simp only [List.map_cons, List.mem_cons, not_or] at h
    have hne : k0 ≠ k := fun hh => h.1 hh.symm
    simp [lookupA, hne, ihm h.2]

theorem lookupA_map_value {α β : Type} (g : α → β) (m : List (String × α))
    (k : String) :
    lookupA (m.map (fun e => (e.1, g e.2))) k = (lookupA m k).map g := by
  induction m with
  | nil => rfl
  | cons e rest ihm =>
    obtain ⟨k0, v⟩ := e
    by_cases h : k0 = k <;> simp [lookupA, h, ihm]

theorem keys_filterMap_skip_sublist {α β : Type} (c : α → Bool) (g : α → β)
    (m : List (String × α)) :
    ((m.filterMap
        (fun e => if c e.2 then none else some (e.1, g e.2))).map
      Prod.fst).Sublist (m.map Prod.fst) := by
  induction m with
  | nil => simp
  | cons e rest ihm =>
    by_cases hc : c e.2
    · simp only [List.filterMap_cons, hc, if_true, List.map_cons]
      exact ihm.cons e.1
    · simp only [List.filterMap_cons, hc, if_false, List.map_cons]
      exact ihm.cons₂ e.1

theorem lookupA_filterMap_skip {α β : Type} (c : α → Bool) (g : α → β)
    (m : List (String × α)) (k : String) (hnd : (m.map Prod.fst).Nodup) :
    lookupA (m.filterMap (fun e => if c e.2 then none else some (e.1, g e.2)))
        k =
      (lookupA m k).bind (fun v => if c v then none else some (g v)) := by
  induction m with
  | nil => rfl
  | cons e rest ihm =>
    obtain ⟨k0, v⟩ := e
    simp only [List.map_cons, List.nodup_cons] at hnd
    obtain ⟨hk0, hnd1⟩ := hnd
    by_cases h : k0 = k
    · subst h
      by_cases hc : c v
      · simp only [List.filterMap_cons, hc, if_true, lookupA, if_pos rfl]
        have hni : k0 ∉ (rest.filterMap
            (fun e => if c e.2 then none else some (e.1, g e.2))).map
              Prod.fst := fun hmem =>
          hk0 ((keys_filterMap_skip_sublist c g rest).mem hmem)
        rw [lookupA_eq_none_of_not_mem_keys _ _ hni]
        simp [hc]
      · simp [List.filterMap_cons, hc, lookupA]
    · by_cases hc : c v
      · simp [List.filterMap_cons, hc, lookupA, h, ihm hnd1]
      · simp [List.filterMap_cons, hc, lookupA, h, ihm hnd1]

theorem mem_filterMap_key_iff {α : Type} (c : α → Bool)
    (m : List (String × α)) (k : String) (hnd : (m.map Prod.fst).Nodup) :
    k ∈ m.filterMap (fun e => if c e.2 then some e.1 else none) ↔
      ∃ v, lookupA m k = some v ∧ c v = true := by
  induction m with
  | nil => simp [lookupA]
  | cons e rest ihm =>
    obtain ⟨k0, v⟩ := e
    simp only [List.map_cons, List.nodup_cons] at hnd
    obtain ⟨hk0, hnd1⟩ := hnd
    have hrest := ihm hnd1
    by_cases hc : c v
    · rw [show List.filterMap (fun e => if c e.2 then some e.1 else none)
          ((k0, v) :: rest) =
            k0 :: List.filterMap (fun e => if c e.2 then some e.1 else none)
              rest from by simp [List.filterMap_cons, hc]]
      by_cases h : k0 = k
      · subst h
        simp [lookupA, hc]
      · rw [List.mem_cons, hrest]
        constructor
        · intro hx
          rcases hx with heq | ⟨v1, hv1, hc1⟩
          · exact absurd heq.symm h
          · refine ⟨v1, ?_, hc1⟩
            simp only [lookupA, if_neg h]
            exact hv1
        · rintro ⟨v1, hv1, hc1⟩
          simp only [lookupA, if_neg h] at hv1
          exact Or.inr ⟨v1, hv1, hc1⟩
    · rw [show List.filterMap (fun e => if c e.2 then some e.1 else none)
          ((k0, v) :: rest) =
            List.filterMap (fun e => if c e.2 then some e.1 else none) rest
          from by simp [List.filterMap_cons, hc]]
      rw [hrest]
      by_cases h : k0 = k
      · subst h
        constructor
        · rintro ⟨v1, hv1, hc1⟩
          rw [lookupA_eq_none_of_not_mem_keys rest k0 hk0] at hv1
          exact absurd hv1 (by simp)
        · rintro ⟨v1, hv1, hc1⟩
          simp only [lookupA, if_pos rfl] at hv1
          injection hv1 with hv1
          subst hv1
          exact absurd hc1 (by simp [hc])
      · constructor
        · rintro ⟨v1, hv1, hc1⟩
          refine ⟨v1, ?_, hc1⟩
          simp only [lookupA, if_neg h]
          exact hv1
        · rintro ⟨v1, hv1, hc1⟩
          simp only [lookupA, if_neg h] at hv1
          exact ⟨v1, hv1, hc1⟩

theorem lookupA_filter_key {α : Type} (q : String → Bool)
    (m : List (String × α)) (k : String) :
    lookupA (m.filter (fun e => q e.1)) k =
      if q k then lookupA m k else none := by
  induction m with
  | nil => simp [lookupA]
  | cons e rest ihm =>
    obtain ⟨k0, v⟩ := e
    by_cases h : k0 = k
    · subst h
      by_cases hq : q k0
      · simp [List.filter_cons, hq, lookupA]
      · simp [List.filter_cons, hq, lookupA, ihm]
    · by_cases hq : q k0
      · simp [List.filter_cons, hq, lookupA, h, ihm]
      · simp [List.filter_cons, hq, lookupA, h, ihm]

theorem mem_dedupByPeerId_sub (l : List Peer) (p : Peer)
    (hp : p ∈ dedupByPeerId l) : p ∈ l := by
  induction l with
  | nil => simp [dedupByPeerId] at hp
  | cons a rest ihl =>
    simp only [dedupByPeerId, List.mem_cons] at hp
    rcases hp with rfl | hmem
    · exact List.mem_cons_self p rest
    · exact List.mem_cons_of_mem a (ihl (List.mem_of_mem_filter hmem))

theorem dedupByPeerId_first_occ (l : List Peer) (p : Peer)
    (hp : p ∈ dedupByPeerId l) :
    ∃ l1 l2, l = l1 ++ p :: l2 ∧ ∀ q ∈ l1, q.peer_id ≠ p.peer_id := by
  induction l with
  | nil => simp [dedupByPeerId] at hp
  | cons a rest ihl =>
    simp only [dedupByPeerId, List.mem_cons] at hp
    rcases hp with rfl | hmem
    · exact ⟨[], rest, rfl, by simp⟩
    · have h1 : p ∈ dedupByPeerId rest := List.mem_of_mem_filter hmem
      have h2 : p.peer_id ≠ a.peer_id := by
        have := List.of_mem_filter hmem
        simpa using this
      obtain ⟨l1, l2, heq, hl1⟩ := ihl h1
      refine ⟨a :: l1, l2, by rw [heq]; rfl, ?_⟩
      intro q hq
      rcases List.mem_cons.mp hq with rfl | hql1
      · exact fun hh => h2 hh.symm
      · exact hl1 q hql1

theorem dedupByPeerId_ids_nodup (l : List Peer) :
    ((dedupByPeerId l).map Peer.peer_id).Nodup := by
  induction l with
  | nil => simp [dedupByPeerId]
  | cons a rest ihl =>
    simp only [dedupByPeerId, List.map_cons, List.nodup_cons]
    constructor
    · intro hmem
      simp only [List.mem_map] at hmem
      obtain ⟨q, hq, hqid⟩ := hmem
      have := List.of_mem_filter hq
      simp only [decide_eq_true_eq] at this
      exact this hqid
    · exact List.Nodup.sublist ((List.filter_sublist _).map _) ihl

theorem insertDesc_perm (p : Peer) (l : List Peer) :
    List.Perm (insertDesc p l) (p :: l) := by
  induction l with
  | nil => exact List.Perm.refl _
  | cons q rest ih =>
    unfold insertDesc
    by_cases h : p.last_seen < q.last_seen
    · rw [if_pos h]
      exact (ih.cons q).trans (List.Perm.swap p q rest)
    · rw [if_neg h]

theorem sortByLastSeenDesc_perm (l : List Peer) :
    List.Perm (sortByLastSeenDesc l) l := by
  induction l with
  | nil => exact List.Perm.refl _
  | cons p rest ih =>
    unfold sortByLastSeenDesc
    exact (insertDesc_perm p (sortByLastSeenDesc rest)).trans (ih.cons p)

theorem insertDesc_pairwise (p : Peer) (l : List Peer)
    (h : l.Pairwise (fun a b => b.last_seen ≤ a.last_seen)) :
    (insertDesc p l).Pairwise (fun a b => b.last_seen ≤ a.last_seen) := by
  induction l with
  | nil => simp [insertDesc]
  | cons q rest ih =>
    rw [List.pairwise_cons] at h
    obtain ⟨hq, hrest⟩ := h
    unfold insertDesc
    by_cases hlt : p.last_seen < q.last_seen
    · rw [if_pos hlt]
      rw [List.pairwise_cons]
      refine ⟨?_, ih hrest⟩
      intro x hx
      rcases List.mem_cons.mp ((insertDesc_perm p rest).mem_iff.mp hx) with
        rfl | hxr
      · exact Nat.le_of_lt hlt
      · exact hq x hxr
    · rw [if_neg hlt]
      rw [List.pairwise_cons]
      refine ⟨?_, by rw [List.pairwise_cons]; exact ⟨hq, hrest⟩⟩
      intro x hx
      rcases List.mem_cons.mp hx with rfl | hxr
      · exact Nat.le_of_not_lt hlt
      · exact Nat.le_trans (hq x hxr) (Nat.le_of_not_lt hlt)

theorem sortByLastSeenDesc_pairwise (l : List Peer) :
    (sortByLastSeenDesc l).Pairwise
      (fun a b => b.last_seen ≤ a.last_seen) := by
  induction l with
  | nil => simp [sortByLastSeenDesc]
  | cons p rest ih =>
    unfold sortByLastSeenDesc
    exact insertDesc_pairwise p _ ih

theorem restorePeers_spec (l : List Peer) :
    ((restorePeers l).map Peer.peer_id).Nodup ∧
    ∀ p ∈ restorePeers l, p ∈ l ∧
      ∀ q ∈ l, q.peer_id = p.peer_id → q.last_seen ≤ p.last_seen := by
  refine ⟨dedupByPeerId_ids_nodup _, ?_⟩
  intro p hp
  have hmemS : p ∈ sortByLastSeenDesc l := mem_dedupByPeerId_sub _ _ hp
  have hmemL : p ∈ l := (sortByLastSeenDesc_perm l).mem_iff.mp hmemS
  refine ⟨hmemL, ?_⟩
  intro q hq hqid
  obtain ⟨l1, l2, heq, hl1⟩ := dedupByPeerId_first_occ _ _ hp
  have hsorted := sortByLastSeenDesc_pairwise l
  have hqS : q ∈ sortByLastSeenDesc l :=
    (sortByLastSeenDesc_perm l).mem_iff.mpr hq
  rw [heq] at hqS hsorted
  rcases List.mem_append.mp hqS with hq1 | hq2
  · exact absurd hqid (hl1 q hq1)
  · rcases List.mem_cons.mp hq2 with rfl | hq3
    · exact Nat.le_refl _
    · have hpair := (List.pairwise_append.mp hsorted).2.1
      exact (List.pairwise_cons.mp hpair).1 q hq3

theorem load_state_torrents_lookup (now : Nat)
    (doc : List (String × SavedTorrent)) (hnd : (doc.map Prod.fst).Nodup)
    (ih : String) :
    lookupA (load_state now doc).torrents ih =
      (lookupA doc ih).bind (fun td =>
        if td.peers_info.isEmpty then none
        else if (activeFilter now (restorePeers td.peers_info)).isEmpty then
          none
        else some (activeFilter now (restorePeers td.peers_info))) := by
  have hnd0 : ((doc.filterMap (fun e =>
      if e.2.peers_info.isEmpty then none
      else some (e.1, restorePeers e.2.peers_info))).map Prod.fst).Nodup :=
    List.Nodup.sublist
      (keys_filterMap_skip_sublist (fun td => td.peers_info.isEmpty)
        (fun td => restorePeers td.peers_info) doc) hnd
  have step2 : lookupA ((doc.filterMap (fun e =>
      if e.2.peers_info.isEmpty then none
      else some (e.1, restorePeers e.2.peers_info))).filterMap (fun e =>
        if (activeFilter now e.2).isEmpty then none
        else some (e.1, activeFilter now e.2))) ih =
      (lookupA (doc.filterMap (fun e =>
        if e.2.peers_info.isEmpty then none
        else some (e.1, restorePeers e.2.peers_info))) ih).bind (fun v =>
          if (activeFilter now v).isEmpty then none
          else some (activeFilter now v)) :=
    lookupA_filterMap_skip (fun sw => (activeFilter now sw).isEmpty)
      (fun sw => activeFilter now sw) _ ih hnd0
  have step1 : lookupA (doc.filterMap (fun e =>
      if e.2.peers_info.isEmpty then none
      else some (e.1, restorePeers e.2.peers_info))) ih =
      (lookupA doc ih).bind (fun td =>
        if td.peers_info.isEmpty then none
        else some (restorePeers td.peers_info)) :=
    lookupA_filterMap_skip (fun td => td.peers_info.isEmpty)
      (fun td => restorePeers td.peers_info) doc ih hnd
  show lookupA ((doc.filterMap (fun e =>
      if e.2.peers_info.isEmpty then none
      else some (e.1, restorePeers e.2.peers_info))).filterMap (fun e =>
        if (activeFilter now e.2).isEmpty then none
        else some (e.1, activeFilter now e.2))) ih = _
  rw [step2, step1]
  cases lookupA doc ih with
  | none => rfl
  | some td =>
    by_cases h1 : td.peers_info.isEmpty
    · simp only [Option.some_bind, h1, if_true, Option.none_bind]
    · simp only [Option.some_bind, h1, Bool.false_eq_true, if_false]

theorem load_state_torrent_info_lookup (now : Nat)
    (doc : List (String × SavedTorrent)) (hnd : (doc.map Prod.fst).Nodup)
    (ih : String) :
    lookupA (load_state now doc).torrent_info ih =
      (lookupA doc ih).bind (fun td =>
        if td.peers_info.isEmpty then some td.info
        else if (activeFilter now (restorePeers td.peers_info)).isEmpty then
          none
        else some td.info) := by
  have hnd0 : ((doc.filterMap (fun e =>
      if e.2.peers_info.isEmpty then none
      else some (e.1, restorePeers e.2.peers_info))).map Prod.fst).Nodup :=
    List.Nodup.sublist
      (keys_filterMap_skip_sublist (fun td => td.peers_info.isEmpty)
        (fun td => restorePeers td.peers_info) doc) hnd
  have step1 : lookupA (doc.filterMap (fun e =>
      if e.2.peers_info.isEmpty then none
      else some (e.1, restorePeers e.2.peers_info))) ih =
      (lookupA doc ih).bind (fun td =>
        if td.peers_info.isEmpty then none
        else some (restorePeers td.peers_info)) :=
    lookupA_filterMap_skip (fun td => td.peers_info.isEmpty)
      (fun td => restorePeers td.peers_info) doc ih hnd
  have hmem : ih ∈ (doc.filterMap (fun e =>
      if e.2.peers_info.isEmpty then none
      else some (e.1, restorePeers e.2.peers_info))).filterMap (fun e =>
        if (activeFilter now e.2).isEmpty then some e.1 else none) ↔
      ∃ v, lookupA (doc.filterMap (fun e =>
        if e.2.peers_info.isEmpty then none
        else some (e.1, restorePeers e.2.peers_info))) ih = some v ∧
        (activeFilter now v).isEmpty = true :=
    mem_filterMap_key_iff (fun sw => (activeFilter now sw).isEmpty) _ ih hnd0
  have hfilter : lookupA ((doc.map (fun e => (e.1, e.2.info))).filter
      (fun e => decide (e.1 ∉ (doc.filterMap (fun e =>
        if e.2.peers_info.isEmpty then none
        else some (e.1, restorePeers e.2.peers_info))).filterMap (fun e =>
          if (activeFilter now e.2).isEmpty then some e.1 else none)))) ih =
      if decide (ih ∉ (doc.filterMap (fun e =>
        if e.2.peers_info.isEmpty then none
        else some (e.1, restorePeers e.2.peers_info))).filterMap (fun e =>
          if (activeFilter now e.2).isEmpty then some e.1 else none)) then
        lookupA (doc.map (fun e => (e.1, e.2.info))) ih
      else none :=
    lookupA_filter_key (fun x => decide (x ∉ (doc.filterMap (fun e =>
      if e.2.peers_info.isEmpty then none
      else some (e.1, restorePeers e.2.peers_info))).filterMap (fun e =>
        if (activeFilter now e.2).isEmpty then some e.1 else none))) _ ih
  show lookupA ((doc.map (fun e => (e.1, e.2.info))).filter
      (fun e => decide (e.1 ∉ (doc.filterMap (fun e =>
        if e.2.peers_info.isEmpty then none
        else some (e.1, restorePeers e.2.peers_info))).filterMap (fun e =>
          if (activeFilter now e.2).isEmpty then some e.1 else none)))) ih = _
  rw [hfilter, lookupA_map_value SavedTorrent.info doc ih]
  rw [step1] at hmem
  cases hdoc : lookupA doc ih with
  | none =>
    rw [if_pos]
    · rfl
    · simp only [decide_eq_true_eq]
      rw [hmem, hdoc]
      rintro ⟨v, hv, -⟩
      exact absurd hv (by simp)
  | some td =>
    rw [hdoc] at hmem
    simp only [Option.some_bind] at hmem
    by_cases h1 : td.peers_info.isEmpty
    · rw [if_pos]
      · rw [show (some td).map SavedTorrent.info = some td.info from rfl]
        simp only [Option.some_bind, h1, if_true]
      · simp only [decide_eq_true_eq]
        rw [hmem]
        simp only [h1, if_true]
        rintro ⟨v, hv, -⟩
        exact absurd hv (by simp)
    · by_cases h2 : (activeFilter now (restorePeers td.peers_info)).isEmpty
      · rw [if_neg]
        · simp only [Option.some_bind, h1, Bool.false_eq_true, if_false, h2,
            if_true]
        · simp only [decide_eq_true_eq, not_not]
          rw [hmem]
          refine ⟨restorePeers td.peers_info, ?_, h2⟩
          simp only [h1, Bool.false_eq_true, if_false]
      · rw [if_pos]
        · rw [show (some td).map SavedTorrent.info = some td.info from rfl]
          simp only [Option.some_bind, h1, Bool.false_eq_true, if_false, h2]
        · simp only [decide_eq_true_eq]
          rw [hmem]
          rintro ⟨v, hv, hve⟩
          simp only [h1, Bool.false_eq_true, if_false] at hv
          injection hv with hv
          subst hv
          exact h2 hve

/-- C3 counterexample: a tombstone torrent (registered but with no peers) is
snapshotted with an empty `peers_info`; after restore it has zero active
peers, yet its `TorrentRecord` is NOT dropped — only torrents whose restored
peer set went through the cleanup loop are deleted, and a torrent with an
empty persisted peer list never enters `self.torrents` at all. -/
theorem load_state_keeps_peerless_record_cex :
    lookupA (load_state 0
        (save_state 0 (add_torrent 0 "h" "nm" 5 2 "c" "cb"
          emptyTracker)).1).torrents "h" = none ∧
    lookupA (load_state 0
        (save_state 0 (add_torrent 0 "h" "nm" 5 2 "c" "cb"
          emptyTracker)).1).torrent_info "h" =
      some ⟨"h", "nm", 5, 2, 0, some "c", some "cb"⟩ := by
  constructor
  · rfl
  · rfl

/-- C3 (amended): `load_state` rebuilds each torrent's peers by sorting the
persisted list by `last_seen` descending and keeping the first occurrence of
each `peer_id` (most recently seen wins), then applies the 30-minute
staleness filter; a torrent persisted with at least one peer but left with
zero active peers loses both its peer set and its `TorrentRecord`, while a
torrent persisted with an empty peer list keeps its `TorrentRecord` (and gets
no swarm); otherwise the round trip preserves every `TorrentRecord` field and
exactly the non-stale deduplicated peers. -/
theorem load_state_round_trip (now : Nat) (doc : List (String × SavedTorrent))
    (hnd : (doc.map Prod.fst).Nodup) (ih : String) :
    (lookupA doc ih = none →
      lookupA (load_state now doc).torrents ih = none ∧
      lookupA (load_state now doc).torrent_info ih = none) ∧
    (∀ td, lookupA doc ih = some td → td.peers_info = [] →
      lookupA (load_state now doc).torrents ih = none ∧
      lookupA (load_state now doc).torrent_info ih = some td.info) ∧
    (∀ td, lookupA doc ih = some td → td.peers_info ≠ [] →
      activeFilter now (restorePeers td.peers_info) = [] →
      lookupA (load_state now doc).torrents ih = none ∧
      lookupA (load_state now doc).torrent_info ih = none) ∧
    (∀ td, lookupA doc ih = some td → td.peers_info ≠ [] →
      activeFilter now (restorePeers td.peers_info) ≠ [] →
      lookupA (load_state now doc).torrents ih =
        some (activeFilter now (restorePeers td.peers_info)) ∧
      lookupA (load_state now doc).torrent_info ih = some td.info) ∧
    (∀ l : List Peer, ((restorePeers l).map Peer.peer_id).Nodup ∧
      ∀ p ∈ restorePeers l, p ∈ l ∧
        ∀ q ∈ l, q.peer_id = p.peer_id → q.last_seen ≤ p.last_seen) := by
  have hT := load_state_torrents_lookup now doc hnd ih
  have hI := load_state_torrent_info_lookup now doc hnd ih
  refine ⟨?_, ?_, ?_, ?_, restorePeers_spec⟩
  · intro h
    rw [hT, hI, h]
    exact ⟨rfl, rfl⟩
  · intro td h hempty
    rw [hT, hI, h]
    have h1 : td.peers_info.isEmpty = true := by
      rw [hempty]
      rfl
    simp only [Option.some_bind, h1, if_true]
    exact ⟨trivial, trivial⟩
  · intro td h hne hact
    rw [hT, hI, h]
    have h1 : ¬td.peers_info.isEmpty = true := by
      simpa [List.isEmpty_iff] using hne
    have h2 : (activeFilter now (restorePeers td.peers_info)).isEmpty =
        true := by
      rw [hact]
      rfl
    simp only [Option.some_bind, h1, Bool.false_eq_true, if_false, h2,
      if_true]
    exact ⟨trivial, trivial⟩
  · intro td h hne hact
    rw [hT, hI, h]
    have h1 : ¬td.peers_info.isEmpty = true := by
      simpa [List.isEmpty_iff] using hne
    have h2 : ¬(activeFilter now (restorePeers td.peers_info)).isEmpty =
        true := by
      simpa [List.isEmpty_iff] using hact
    simp only [Option.some_bind, h1, Bool.false_eq_true, if_false, h2]
    exact ⟨trivial, trivial⟩

theorem load_state_round_trip_witness :
    lookupA (load_state 60
        [("h", ⟨⟨"h", "n", 1, 2, 3, none, none⟩,
          [⟨"a", "ip1", 1, 10, 0, 0, 0, true⟩,
            ⟨"a", "ip2", 2, 50, 0, 0, 0, true⟩,
            ⟨"b", "ip3", 3, 0, 0, 0, 5, false⟩], none⟩)]).torrents "h" =
      some [⟨"a", "ip2", 2, 50, 0, 0, 0, true⟩,
        ⟨"b", "ip3", 3, 0, 0, 0, 5, false⟩] ∧
    lookupA (load_state 60
        [("h", ⟨⟨"h", "n", 1, 2, 3, none, none⟩,
          [⟨"a", "ip1", 1, 10, 0, 0, 0, true⟩,
            ⟨"a", "ip2", 2, 50, 0, 0, 0, true⟩,
            ⟨"b", "ip3", 3, 0, 0, 0, 5, false⟩], none⟩)]).torrent_info "h" =
      some ⟨"h", "n", 1, 2, 3, none, none⟩ := by
  have h := ((load_state_round_trip 60
      [("h", ⟨⟨"h", "n", 1, 2, 3, none, none⟩,
        [⟨"a", "ip1", 1, 10, 0, 0, 0, true⟩,
          ⟨"a", "ip2", 2, 50, 0, 0, 0, true⟩,
          ⟨"b", "ip3", 3, 0, 0, 0, 5, false⟩], none⟩)]
      (by decide) "h").2.2.2.1)
    ⟨⟨"h", "n", 1, 2, 3, none, none⟩,
      [⟨"a", "ip1", 1, 10, 0, 0, 0, true⟩,
        ⟨"a", "ip2", 2, 50, 0, 0, 0, true⟩,
        ⟨"b", "ip3", 3, 0, 0, 0, 5, false⟩], none⟩
    (by decide) (by decide) (by decide)
  rw [h.1, h.2]
  constructor
  · rw [show activeFilter 60 (restorePeers
      [⟨"a", "ip1", 1, 10, 0, 0, 0, true⟩,
        ⟨"a", "ip2", 2, 50, 0, 0, 0, true⟩,
        ⟨"b", "ip3", 3, 0, 0, 0, 5, false⟩]) =
      [⟨"a", "ip2", 2, 50, 0, 0, 0, true⟩,
        ⟨"b", "ip3", 3, 0, 0, 0, 5, false⟩] from by decide]
  · rfl
